import Mathlib

/-!
Verification development for the emotion-based music player
(`src/music_player.py`, `src/emotion_detector.py`).

The Python code is shallowly embedded:

* Python floats are modelled as exact rationals (`ℚ`).  The matcher minimises
  the Euclidean distance `sqrt ((v₁-v₂)² + (a₁-a₂)²)`; since `sqrt` is
  strictly monotone on nonnegative reals, the row of minimum distance is the
  row of minimum squared distance, so we work with the squared distance
  `dist2`, which stays in `ℚ`.
* The filesystem and the pygame mixer are modelled as an explicit
  environment: a predicate saying which paths exist, a size function, and a
  predicate saying for which paths `mixer.music.load/play` succeeds.
* pandas tables are modelled as Lean lists of rows, in table iteration
  order; `Series.idxmin` returns the label of the first minimal entry, which
  corresponds to selecting the first row of minimal distance.
* Fallible Python code (try/except) is modelled by explicit case analysis on
  the environment; functions return the value the except-branch returns.
-/

namespace EmotionMusic

unseal Rat.mul Rat.add Rat.sub Rat.inv

/-- A row of the in-memory song table `merged_df` built by
`MusicPlayer.load_dataset`: song identifier, path of the audio file and the
annotated valence/arousal averages.  The aggregated per-song audio features
also present in `merged_df` are not consulted by `find_matching_song`, so
they are not part of this record. -/
structure Song where
  song_id : Nat
  audio_path : String
  valence_average : ℚ
  arousal_average : ℚ
deriving DecidableEq, Repr

/-- Squared Euclidean distance from the query `(v, a)` to a row's
`(valence_average, arousal_average)`, the quantity
`(row.valence_average - v)**2 + (row.arousal_average - a)**2` whose square
root `find_matching_song` stores in the `distance` column.  Minimising the
squared distance is equivalent to minimising the distance itself. -/
def dist2 (v a : ℚ) (s : Song) : ℚ :=
  (s.valence_average - v) ^ 2 + (s.arousal_average - a) ^ 2

/-- `self.merged_df.loc[self.merged_df['distance'].idxmin()]`: the first row
of minimal (squared) distance, `none` on the empty table (where `idxmin`
raises `ValueError`).  On a tie the earlier row wins, as with `idxmin`. -/
def selectClosest (v a : ℚ) : List Song → Option Song
  | [] => none
  | r :: rs =>
    match selectClosest v a rs with
    | none => some r
    | some s => if dist2 v a r ≤ dist2 v a s then some r else some s

/-- The search loop of `MusicPlayer.find_matching_song` with an explicit
recursion budget.  The Python method recurses after removing one row from
`self.merged_df`, so the length of the initial table bounds the recursion
depth; the fuel argument makes that bound explicit and the function
structurally recursive (the fuel-0 case is reached only on the empty
table, where the search also answers `none`).  The result pairs the Python
return value with the table remaining in `self.merged_df`. -/
def findAux (fs : String → Bool) (v a : ℚ) : Nat → List Song → Option Song × List Song
  | 0, t => (none, t)
  | fuel + 1, t =>
    match selectClosest v a t with
    | none => (none, t)
    | some r =>
      if fs r.audio_path then (some r, t)
      else findAux fs v a fuel (t.erase r)

/-- `MusicPlayer.find_matching_song(valence, arousal)`: compute the
distance of every row of `merged_df`, take the row at `idxmin` of the
distance column (the first row of minimal distance), return it if its
audio file exists, otherwise drop that row from `self.merged_df` and retry
on the reduced table; on the empty table `idxmin` raises `ValueError` and
the handler returns `None`.  `fs` models `os.path.exists`. -/
def find_matching_song (fs : String → Bool) (v a : ℚ) (t : List Song) :
    Option Song × List Song :=
  findAux fs v a t.length t

/-- Replay of a sequence of matcher queries within one session: the table
left in `self.merged_df` threads from call to call, and the rows returned
by the successive calls are collected. -/
def sessionResults (fs : String → Bool) : List (ℚ × ℚ) → List Song → List Song
  | [], _ => []
  | q :: qs, t =>
    let res := find_matching_song fs q.1 q.2 t
    match res.1 with
    | some r => r :: sessionResults fs qs res.2
    | none => sessionResults fs qs res.2

/-- First song of the worked example in the specification: id 1, valence
and arousal 0.8, audio file present. -/
def songOne : Song := ⟨1, "1.mp3", 4/5, 4/5⟩

/-- Second song of the worked example: id 2, valence -0.8, arousal -0.4,
audio file missing. -/
def songTwo : Song := ⟨2, "2.mp3", -(4/5), -(2/5)⟩

/-- Example filesystem: only `songOne`'s audio file exists. -/
def fsExample : String → Bool := fun p => p == "1.mp3"

/-- The playback state of `MusicPlayer`: the fields set in `__init__` and
mutated by `play_song`, `stop_song` and `set_volume`.  Timestamps
(`time.time()` values) are modelled as rationals. -/
structure PlayerState where
  volume : ℚ
  current_song : Option String
  is_playing : Bool
  last_play_time : ℚ
  min_play_interval : ℚ
deriving DecidableEq, Repr

/-- The playback fields as `MusicPlayer.__init__` leaves them: volume 0.5,
no current song, not playing, `last_play_time = 0`,
`min_play_interval = 1.0`. -/
def initState : PlayerState :=
  { volume := 1/2, current_song := none, is_playing := false,
    last_play_time := 0, min_play_interval := 1 }

/-- Environment of `play_song`: which paths exist (`os.path.exists`),
their sizes (`os.path.getsize`), and for which paths the
`mixer.music.load/set_volume/play` block completes without raising.  The
volume setter itself (`mixer.music.set_volume` on an initialized mixer
with a clamped argument) is modelled as infallible. -/
structure AudioEnv where
  pathExists : String → Bool
  fileSize : String → Nat
  loadOk : String → Bool

/-- `MusicPlayer.stop_song()`: if a song is playing, stop the mixer and
clear `current_song`/`is_playing`; otherwise do nothing. -/
def stop_song (st : PlayerState) : PlayerState :=
  if st.is_playing then { st with current_song := none, is_playing := false } else st

/-- Result of a `play_song` call: the returned boolean, the playback state
after the call, and whether the call reached the `mixer.music.load` /
`mixer.music.play` step (i.e. whether it (re)loaded the track). -/
structure PlayResult where
  ret : Bool
  state : PlayerState
  loadAttempted : Bool
deriving DecidableEq, Repr

/-- `MusicPlayer.play_song(song_path)` at wall-clock time `now`, in order:
reject if less than `min_play_interval` has passed since `last_play_time`;
return `True` untouched if `song_path` is the playing song; reject a
missing path; reject a zero-length file; otherwise stop any current
playback, then load and start the track — on success update
`current_song`, `is_playing` and `last_play_time`, on a load/play
exception return `False` (the stop already happened). -/
def play_song (env : AudioEnv) (now : ℚ) (song_path : String)
    (st : PlayerState) : PlayResult :=
  if now - st.last_play_time < st.min_play_interval then
    ⟨false, st, false⟩
  else if st.current_song = some song_path ∧ st.is_playing = true then
    ⟨true, st, false⟩
  else if env.pathExists song_path = false then
    ⟨false, st, false⟩
  else if env.fileSize song_path = 0 then
    ⟨false, st, false⟩
  else
    let st1 := stop_song st
    if env.loadOk song_path = true then
      ⟨true, { st1 with current_song := some song_path, is_playing := true,
                        last_play_time := now }, true⟩
    else
      ⟨false, st1, true⟩

/-- `MusicPlayer.set_volume(volume)`: clamp to `[0, 1]`, store, apply to
the mixer, return `True`. -/
def set_volume (v : ℚ) (st : PlayerState) : Bool × PlayerState :=
  (true, { st with volume := max 0 (min 1 v) })

/-- The invariant of the playback state: a current song is recorded
exactly when a song is playing. -/
@[reducible] def playbackInv (st : PlayerState) : Prop :=
  st.current_song.isSome = st.is_playing

/-- Environment for concrete playback scenarios: every path exists, every
file is nonempty, loading always succeeds. -/
def envOk : AudioEnv := ⟨fun _ => true, fun _ => 1, fun _ => true⟩

/-- Playback state with "a.mp3" currently playing, long after the last
play start. -/
def statePlayingA : PlayerState :=
  { volume := 1/2, current_song := some "a.mp3", is_playing := true,
    last_play_time := 0, min_play_interval := 1 }

/-- Environment in which every path exists and is nonempty but loading
"b.mp3" raises. -/
def envLoadFailB : AudioEnv := ⟨fun _ => true, fun _ => 1, fun p => !(p == "b.mp3")⟩

/-- The seven-entry `emotion_map` dictionary of
`EmotionDetector.emotion_to_valence_arousal`, in insertion order. -/
def emotion_map : List (String × (ℚ × ℚ)) :=
  [("happy", (8/10, 8/10)),
   ("sad", (-(8/10), -(4/10))),
   ("angry", (-(7/10), 8/10)),
   ("neutral", (0, 0)),
   ("fear", (-(8/10), 5/10)),
   ("surprise", (4/10, 8/10)),
   ("disgust", (-(8/10), 1/10))]

/-- `EmotionDetector.emotion_to_valence_arousal(emotion)`:
`emotion_map.get(emotion, (0.0, 0.0))`. -/
def emotion_to_valence_arousal (emotion : String) : ℚ × ℚ :=
  (emotion_map.lookup emotion).getD (0, 0)

/-- `max(emotions_dict.items(), key=lambda x: x[1])[0]`: the first
(label, score) entry of maximal score, in dictionary iteration order;
`none` on the empty dictionary (where Python `max` raises). -/
def dominantEmotion : List (String × ℚ) → Option (String × ℚ)
  | [] => none
  | x :: xs =>
    match dominantEmotion xs with
    | none => some x
    | some y => if y.2 > x.2 then some y else some x

/-- `EmotionDetector.detect_emotion(frame)`.  The external
`FER.detect_emotions` call is modelled by its outcome: `.error` when it
(or anything inside the try block) raises, otherwise the list of detected
faces, each given by its emotion dictionary as (label, score) pairs.  With
no detected face, or on an exception, the method returns `(None, 0, 0)`;
otherwise it takes the dominant emotion of the first face and maps it
through `emotion_to_valence_arousal`. -/
def detect_emotion (detection : Except String (List (List (String × ℚ)))) :
    Option String × ℚ × ℚ :=
  match detection with
  | Except.error _ => (none, 0, 0)
  | Except.ok [] => (none, 0, 0)
  | Except.ok (face :: _) =>
    match dominantEmotion face with
    | none => (none, 0, 0)
    | some x =>
      let va := emotion_to_valence_arousal x.1
      (some x.1, va.1, va.2)

/-- A per-song row of `features_df` built by `MusicPlayer.load_dataset`:
song id, the per-column means of the song's feature file, and the
constructed audio path. -/
structure FeatRow where
  song_id : Nat
  features : List ℚ
  audio_path : String
deriving DecidableEq, Repr

/-- A row of the combined `labels_df` before grouping: song id plus the
`valence_mean`/`arousal_mean` columns renamed to
`valence_average`/`arousal_average`. -/
structure LabelRow where
  song_id : Nat
  valence_average : ℚ
  arousal_average : ℚ
deriving DecidableEq, Repr

/-- A row of `merged_df` after
`pd.merge(features_df, labels_df, on='song_id')`. -/
structure MergedRow where
  song_id : Nat
  features : List ℚ
  audio_path : String
  valence_average : ℚ
  arousal_average : ℚ
deriving DecidableEq, Repr

/-- `labels_df.groupby('song_id').agg({... 'mean'}).reset_index()`: one
row per distinct song id (pandas emits group keys in sorted order),
averaging the rows of each group. -/
def groupLabels (ls : List LabelRow) : List LabelRow :=
  ((ls.map (·.song_id)).dedup.mergeSort (fun a b => decide (a ≤ b))).map (fun sid =>
    let grp := ls.filter (fun l => l.song_id == sid)
    { song_id := sid,
      valence_average := (grp.map (·.valence_average)).sum / (grp.length : ℚ),
      arousal_average := (grp.map (·.arousal_average)).sum / (grp.length : ℚ) })

/-- `pd.merge(features_df, labels_df, on='song_id')` with the default
inner join: each feature row pairs with each label row of equal
`song_id`, in left-table order; rows of either side without a partner are
dropped. -/
def mergeOnSongId (fs : List FeatRow) (ls : List LabelRow) : List MergedRow :=
  fs.flatMap (fun f =>
    (ls.filter (fun l => l.song_id == f.song_id)).map (fun l =>
      { song_id := f.song_id, features := f.features, audio_path := f.audio_path,
        valence_average := l.valence_average, arousal_average := l.arousal_average }))

/-- The join pipeline of `MusicPlayer.load_dataset`: concatenate the two
annotation tables, average duplicate song ids, and inner-join with the
feature table on `song_id`.  (The final `fillna` mean-imputation step
rewrites numeric values only; it neither adds nor removes rows and is not
modelled.) -/
def load_dataset_table (features : List FeatRow) (l1 l2 : List LabelRow) :
    List MergedRow :=
  mergeOnSongId features (groupLabels (l1 ++ l2))

/-- Feature row for the join witness: song 5 with some features. -/
def featExample : FeatRow := ⟨5, [1, 2], "5.mp3"⟩

/-- Annotation row for the join witness: only song 2 is annotated. -/
def labelExample : LabelRow := ⟨2, 1/2, 1/2⟩

theorem selectClosest_eq_none_iff (v a : ℚ) (t : List Song) :
    selectClosest v a t = none ↔ t = [] := by
  induction t with
  | nil => simp [selectClosest]
  | cons r rs ih =>
    simp only [selectClosest]
    cases h : selectClosest v a rs with
    | none => simp
    | some s =>
      constructor
      · intro hc
        by_cases hle : dist2 v a r ≤ dist2 v a s <;> simp [hle] at hc
      · intro hc; exact absurd hc (by simp)

theorem selectClosest_mem (v a : ℚ) :
    ∀ (t : List Song) (r : Song), selectClosest v a t = some r → r ∈ t := by
  intro t
  induction t with
  | nil => intro r h; simp [selectClosest] at h
  | cons x xs ih =>
    intro r h
    simp only [selectClosest] at h
    cases hx : selectClosest v a xs with
    | none =>
      rw [hx] at h
      simp at h
      simp [h]
    | some s =>
      rw [hx] at h
      by_cases hle : dist2 v a x ≤ dist2 v a s
      · simp [hle] at h; simp [h]
      · simp [hle] at h
        obtain rfl := h
        exact List.mem_cons_of_mem x (ih s hx)

theorem selectClosest_min (v a : ℚ) :
    ∀ (t : List Song) (r : Song), selectClosest v a t = some r →
      ∀ y ∈ t, dist2 v a r ≤ dist2 v a y := by
  intro t
  induction t with
  | nil => intro r h; simp [selectClosest] at h
  | cons x xs ih =>
    intro r h y hy
    simp only [selectClosest] at h
    cases hx : selectClosest v a xs with
    | none =>
      rw [hx] at h
      simp at h
      subst h
      rcases List.mem_cons.mp hy with hy | hy
      · simp [hy]
      · exact absurd ((selectClosest_eq_none_iff v a xs).mp hx ▸ hy) (by simp)
    | some s =>
      rw [hx] at h
      by_cases hle : dist2 v a x ≤ dist2 v a s
      · simp [hle] at h
        obtain rfl := h
        rcases List.mem_cons.mp hy with hy | hy
        · simp [hy]
        · exact le_trans hle (ih s hx y hy)
      · simp [hle] at h
        obtain rfl := h
        rcases List.mem_cons.mp hy with hy | hy
        · subst hy; exact le_of_not_le hle
        · exact ih s hx y hy

/-- Soundness of `selectClosest` for tie-breaking: the selected row splits
the table so that every earlier row is strictly farther. -/
theorem selectClosest_first (v a : ℚ) :
    ∀ (t : List Song) (r : Song), selectClosest v a t = some r →
      ∃ l₁ l₂, t = l₁ ++ r :: l₂ ∧ ∀ y ∈ l₁, dist2 v a r < dist2 v a y := by
  intro t
  induction t with
  | nil => intro r h; simp [selectClosest] at h
  | cons x xs ih =>
    intro r h
    simp only [selectClosest] at h
    cases hx : selectClosest v a xs with
    | none =>
      rw [hx] at h
      simp at h
      subst h
      exact ⟨[], xs, rfl, by simp⟩
    | some s =>
      rw [hx] at h
      by_cases hle : dist2 v a x ≤ dist2 v a s
      · simp [hle] at h
        obtain rfl := h
        exact ⟨[], xs, rfl, by simp⟩
      · simp [hle] at h
        obtain rfl := h
        obtain ⟨l₁, l₂, heq, hstrict⟩ := ih s hx
        refine ⟨x :: l₁, l₂, by simp [heq], ?_⟩
        intro y hy
        rcases List.mem_cons.mp hy with hy | hy
        · subst hy
          exact lt_of_not_le hle
        · exact hstrict y hy

/-- Completeness: a row that is no farther than every row and strictly
closer than every earlier row is the one `selectClosest` returns. -/
theorem selectClosest_complete (v a : ℚ) (r : Song) :
    ∀ (l₁ l₂ : List Song),
      (∀ y ∈ l₁, dist2 v a r < dist2 v a y) →
      (∀ y ∈ l₁ ++ r :: l₂, dist2 v a r ≤ dist2 v a y) →
      selectClosest v a (l₁ ++ r :: l₂) = some r := by
  intro l₁
  induction l₁ with
  | nil =>
    intro l₂ _ hmin
    simp only [List.nil_append, selectClosest]
    cases hx : selectClosest v a l₂ with
    | none => rfl
    | some s =>
      have hs : s ∈ l₂ := selectClosest_mem v a l₂ s hx
      have : dist2 v a r ≤ dist2 v a s := hmin s (by simp [hs])
      simp [this]
  | cons x l₁ ih =>
    intro l₂ hstrict hmin
    simp only [List.cons_append, selectClosest, List.append_eq]
    rw [ih l₂ (fun y hy => hstrict y (List.mem_cons_of_mem x hy))
      (fun y hy => hmin y (List.mem_cons_of_mem x hy))]
    have hx : dist2 v a r < dist2 v a x := hstrict x (List.mem_cons_self x l₁)
    simp [not_le.mpr hx]

/-- Erasing a row that the filter rejects anyway does not change the
filtered table. -/
theorem filter_erase_of_not (p : Song → Bool) (r : Song) (hp : p r = false) :
    ∀ t : List Song, (t.erase r).filter p = t.filter p := by
  intro t
  induction t with
  | nil => simp
  | cons x xs ih =>
    by_cases hx : x = r
    · subst hx
      simp [List.erase_cons_head, List.filter_cons, hp]
    · rw [List.erase_cons_tail (by simp [hx]), List.filter_cons, List.filter_cons, ih]

/-- When the closest row of the whole table passes the existence filter, it
is also the closest row of the filtered table (same tie-breaking). -/
theorem selectClosest_filter (p : Song → Bool) (v a : ℚ) (t : List Song) (r : Song)
    (h : selectClosest v a t = some r) (hp : p r = true) :
    selectClosest v a (t.filter p) = some r := by
  obtain ⟨l₁, l₂, rfl, hstrict⟩ := selectClosest_first v a t r h
  have hmin := selectClosest_min v a _ r h
  rw [List.filter_append, List.filter_cons, if_pos hp]
  refine selectClosest_complete v a r (l₁.filter p) (l₂.filter p) ?_ ?_
  · exact fun y hy => hstrict y (List.mem_of_mem_filter hy)
  · intro y hy
    rcases List.mem_append.mp hy with hy | hy
    · exact hmin y (List.mem_append.mpr (Or.inl (List.mem_of_mem_filter hy)))
    · rcases List.mem_cons.mp hy with hy | hy
      · subst hy; exact le_refl _
      · exact hmin y (List.mem_append.mpr (Or.inr (List.mem_cons_of_mem r (List.mem_of_mem_filter hy))))

theorem findAux_fst (fs : String → Bool) (v a : ℚ) :
    ∀ (fuel : Nat) (t : List Song), t.length ≤ fuel →
      (findAux fs v a fuel t).1 =
        selectClosest v a (t.filter fun s => fs s.audio_path) := by
  intro fuel
  induction fuel with
  | zero =>
    intro t ht
    have h0 : t = [] := List.length_eq_zero.mp (Nat.le_zero.mp ht)
    subst h0
    simp [findAux, selectClosest]
  | succ fuel ih =>
    intro t ht
    simp only [findAux]
    cases hsel : selectClosest v a t with
    | none =>
      have h0 : t = [] := (selectClosest_eq_none_iff v a t).mp hsel
      subst h0
      simp [selectClosest]
    | some r =>
      have hmem : r ∈ t := selectClosest_mem v a t r hsel
      cases hfs : fs r.audio_path with
      | true =>
        simp only [hfs, if_true]
        exact (selectClosest_filter _ v a t r hsel hfs).symm
      | false =>
        simp only [hfs, Bool.false_eq_true, if_false]
        have hlen : (t.erase r).length ≤ fuel := by
          rw [List.length_erase_of_mem hmem]
          omega
        rw [ih (t.erase r) hlen, filter_erase_of_not _ r hfs]

theorem findAux_snd_sublist (fs : String → Bool) (v a : ℚ) :
    ∀ (fuel : Nat) (t : List Song), (findAux fs v a fuel t).2.Sublist t := by
  intro fuel
  induction fuel with
  | zero => intro t; exact List.Sublist.refl t
  | succ fuel ih =>
    intro t
    cases hsel : selectClosest v a t with
    | none => simp [findAux, hsel]
    | some r =>
      simp only [findAux, hsel]
      by_cases hfs : fs r.audio_path = true
      · rw [if_pos hfs]
      · rw [if_neg hfs]
        exact (ih (t.erase r)).trans (List.erase_sublist r t)

theorem findAux_fst_mem_snd (fs : String → Bool) (v a : ℚ) :
    ∀ (fuel : Nat) (t : List Song) (s : Song),
      (findAux fs v a fuel t).1 = some s → s ∈ (findAux fs v a fuel t).2 := by
  intro fuel
  induction fuel with
  | zero => intro t s h; exact absurd h (by simp [findAux])
  | succ fuel ih =>
    intro t s
    cases hsel : selectClosest v a t with
    | none =>
      simp only [findAux, hsel]
      intro h; exact absurd h (by simp)
    | some r =>
      simp only [findAux, hsel]
      by_cases hfs : fs r.audio_path = true
      · rw [if_pos hfs]
        intro h
        obtain rfl : r = s := by simpa using h
        exact selectClosest_mem v a t r hsel
      · rw [if_neg hfs]
        exact ih (t.erase r) s

/-- Every row that a `find_matching_song` call drops from the table has a
missing audio file: rows with existing files are never eliminated. -/
theorem findAux_removed (fs : String → Bool) (v a : ℚ) :
    ∀ (fuel : Nat) (t : List Song) (r : Song), r ∈ t →
      r ∉ (findAux fs v a fuel t).2 → fs r.audio_path = false := by
  intro fuel
  induction fuel with
  | zero => intro t r hmem hgone; exact absurd hmem hgone
  | succ fuel ih =>
    intro t r hmem
    cases hsel : selectClosest v a t with
    | none =>
      simp only [findAux, hsel]
      intro hgone; exact absurd hmem hgone
    | some c =>
      simp only [findAux, hsel]
      by_cases hfs : fs c.audio_path = true
      · rw [if_pos hfs]
        intro hgone; exact absurd hmem hgone
      · rw [if_neg hfs]
        intro hgone
        by_cases hrc : r = c
        · subst hrc
          exact (Bool.not_eq_true _) ▸ hfs
        · exact ih (t.erase c) r ((List.mem_erase_of_ne hrc).mpr hmem) hgone

theorem not_mem_sessionResults (fs : String → Bool) (r : Song) :
    ∀ (qs : List (ℚ × ℚ)) (t : List Song), r ∉ t → r ∉ sessionResults fs qs t := by
  intro qs
  induction qs with
  | nil => intro t _; simp [sessionResults]
  | cons q qs ih =>
    intro t hr
    have hsub : (find_matching_song fs q.1 q.2 t).2.Sublist t :=
      findAux_snd_sublist fs q.1 q.2 t.length t
    have hr1 : r ∉ (find_matching_song fs q.1 q.2 t).2 :=
      fun hmem => hr (hsub.subset hmem)
    simp only [sessionResults]
    cases hfst : (find_matching_song fs q.1 q.2 t).1 with
    | none => exact ih _ hr1
    | some s =>
      have hs : s ∈ (find_matching_song fs q.1 q.2 t).2 :=
        findAux_fst_mem_snd fs q.1 q.2 t.length t s hfst
      intro hcon
      rcases List.mem_cons.mp hcon with hcon | hcon
      · exact hr1 (hcon ▸ hs)
      · exact ih _ hr1 hcon

/-- C1: for every `(valence, arousal)` query, `find_matching_song` returns
the first row of minimal Euclidean distance among the rows of the table
whose audio file exists — its result equals `selectClosest` (first minimum
in table iteration order) on the existence-filtered table — hence any
returned row is a table row with an existing file at minimal distance among
such rows, and the result is `none` when no row with an existing audio file
remains. -/
theorem find_matching_song_min (fs : String → Bool) (v a : ℚ) (t : List Song) :
    (find_matching_song fs v a t).1 =
        selectClosest v a (t.filter fun s => fs s.audio_path) ∧
    (∀ r, (find_matching_song fs v a t).1 = some r →
        r ∈ t ∧ fs r.audio_path = true ∧
          ∀ y ∈ t, fs y.audio_path = true → dist2 v a r ≤ dist2 v a y) ∧
    ((t.filter fun s => fs s.audio_path) = [] →
        (find_matching_song fs v a t).1 = none) := by
  have heq : (find_matching_song fs v a t).1 =
      selectClosest v a (t.filter fun s => fs s.audio_path) :=
    findAux_fst fs v a t.length t le_rfl
  refine ⟨heq, ?_, ?_⟩
  · intro r hr
    rw [heq] at hr
    have hmem := selectClosest_mem v a _ r hr
    have hfil := List.mem_filter.mp hmem
    refine ⟨hfil.1, hfil.2, ?_⟩
    intro y hy hfy
    exact selectClosest_min v a _ r hr y (List.mem_filter.mpr ⟨hy, hfy⟩)
  · intro h
    rw [heq, h]
    rfl

/-- Witness for the minimality statement: on a filesystem with no audio
files the matcher answers `none`, and the generic theorem applies at this
concrete input. -/
theorem find_matching_song_min_witness :
    ([songOne].filter (fun s => (fun _ : String => false) s.audio_path)) = [] ∧
    (find_matching_song (fun _ => false) 0 0 [songOne]).1 = none :=
  ⟨by decide, (find_matching_song_min (fun _ => false) 0 0 [songOne]).2.2 (by decide)⟩

/-- C7: a row that a `find_matching_song` call removed from the table has a
missing audio file and is never returned by any subsequent query of the
session, which continues on the reduced table. -/
theorem find_matching_song_eliminates (fs : String → Bool) (v a : ℚ)
    (t : List Song) (r : Song) (hmem : r ∈ t)
    (hgone : r ∉ (find_matching_song fs v a t).2) :
    fs r.audio_path = false ∧
      ∀ qs : List (ℚ × ℚ), r ∉ sessionResults fs qs (find_matching_song fs v a t).2 :=
  ⟨findAux_removed fs v a t.length t r hmem hgone,
   fun qs => not_mem_sessionResults fs r qs _ hgone⟩

/-- Witness on the specification's worked example: querying the
coordinates of the missing-file row `songTwo` returns `songOne`, removes
`songTwo` from the table for good, and a repeated identical query still
never returns `songTwo`. -/
theorem find_matching_song_eliminates_witness :
    songTwo ∈ [songOne, songTwo] ∧
    songTwo ∉ (find_matching_song fsExample (-(4/5)) (-(2/5)) [songOne, songTwo]).2 ∧
    (find_matching_song fsExample (-(4/5)) (-(2/5)) [songOne, songTwo]).1 = some songOne ∧
    fsExample songTwo.audio_path = false ∧
    songTwo ∉ sessionResults fsExample [(-(4/5), -(2/5))]
      (find_matching_song fsExample (-(4/5)) (-(2/5)) [songOne, songTwo]).2 := by
  refine ⟨by decide, by decide, by decide, ?_, ?_⟩
  · exact (find_matching_song_eliminates fsExample (-(4/5)) (-(2/5))
      [songOne, songTwo] songTwo (by decide) (by decide)).1
  · exact (find_matching_song_eliminates fsExample (-(4/5)) (-(2/5))
      [songOne, songTwo] songTwo (by decide) (by decide)).2 [(-(4/5), -(2/5))]

/-- A successful `play_song` call leaves `song_path` as the playing
current song. -/
theorem play_song_ret_true (env : AudioEnv) (now : ℚ) (p : String) (st : PlayerState)
    (h : (play_song env now p st).ret = true) :
    (play_song env now p st).state.current_song = some p ∧
    (play_song env now p st).state.is_playing = true := by
  simp only [play_song] at h ⊢
  split_ifs at h ⊢ with h1 h2 h3 h4 h5 <;>
    first
      | exact ⟨h2.1, h2.2⟩
      | exact ⟨rfl, rfl⟩

/-- C2 (as stated) is false on the code: from the initial state, a first
`play_song("a.mp3")` at time 100 succeeds, and an immediately following
`play_song("a.mp3")` at time 100.5 returns `False`, because the
minimum-interval guard is checked before the already-playing check. -/
theorem play_song_twice_counterexample :
    (play_song envOk 100 "a.mp3" initState).ret = true ∧
    (play_song envOk (100 + 1/2) "a.mp3"
        (play_song envOk 100 "a.mp3" initState).state).ret = false := by
  decide

/-- C2 amended: a second `play_song` call with the same path returns true
and neither reloads the track nor changes any state, provided the first
call returned true and the second call comes at least `min_play_interval`
after the last play start; within the minimum interval the second call
returns false instead. -/
theorem play_song_same_path_idempotent (env : AudioEnv) (now now2 : ℚ)
    (p : String) (st : PlayerState)
    (h1 : (play_song env now p st).ret = true)
    (h2 : ¬ (now2 - (play_song env now p st).state.last_play_time <
              (play_song env now p st).state.min_play_interval)) :
    play_song env now2 p (play_song env now p st).state =
      ⟨true, (play_song env now p st).state, false⟩ := by
  obtain ⟨hc, hp⟩ := play_song_ret_true env now p st h1
  rw [play_song, if_neg h2, if_pos ⟨hc, hp⟩]

/-- Witness: first call at time 100, second at time 102 (interval
elapsed): both return true and the second is a no-op. -/
theorem play_song_same_path_idempotent_witness :
    (play_song envOk 100 "a.mp3" initState).ret = true ∧
    ¬ ((102:ℚ) - (play_song envOk 100 "a.mp3" initState).state.last_play_time <
        (play_song envOk 100 "a.mp3" initState).state.min_play_interval) ∧
    play_song envOk 102 "a.mp3" (play_song envOk 100 "a.mp3" initState).state =
      ⟨true, (play_song envOk 100 "a.mp3" initState).state, false⟩ :=
  ⟨by decide, by decide,
   play_song_same_path_idempotent envOk 100 102 "a.mp3" initState (by decide) (by decide)⟩

/-- C3 (as stated) is false on the code: with "a.mp3" playing, a
`play_song("b.mp3")` whose load step fails returns `False` but has
stopped the previous track, so the prior state is not restored. -/
theorem play_song_failure_counterexample :
    (play_song envLoadFailB 100 "b.mp3" statePlayingA).ret = false ∧
    (play_song envLoadFailB 100 "b.mp3" statePlayingA).state.current_song = none ∧
    statePlayingA.current_song = some "a.mp3" ∧
    (play_song envLoadFailB 100 "b.mp3" statePlayingA).state ≠ statePlayingA := by
  decide

/-- C3 amended: a false-returning `play_song` call never changes `volume`,
`last_play_time` (or the interval constant); if it failed before reaching
the load step the whole state is unchanged, and if the load step failed
the state is exactly the prior state after `stop_song` (the current track
may thus have been stopped and cleared). -/
theorem play_song_false_frame (env : AudioEnv) (now : ℚ) (p : String)
    (st : PlayerState) (h : (play_song env now p st).ret = false) :
    (play_song env now p st).state.volume = st.volume ∧
    (play_song env now p st).state.last_play_time = st.last_play_time ∧
    (play_song env now p st).state.min_play_interval = st.min_play_interval ∧
    ((play_song env now p st).loadAttempted = false →
      (play_song env now p st).state = st) ∧
    ((play_song env now p st).loadAttempted = true →
      (play_song env now p st).state = stop_song st) := by
  simp only [play_song] at h ⊢
  split_ifs at h ⊢ with h1 h2 h3 h4 h5 <;>
    first
      | exact ⟨rfl, rfl, rfl, fun _ => rfl, by simp⟩
      | (refine ⟨?_, ?_, ?_, by simp, fun _ => rfl⟩ <;>
          (simp only [stop_song]; split_ifs <;> rfl))

/-- Witness for the amended frame condition at the load-failure input. -/
theorem play_song_false_frame_witness :
    (play_song envLoadFailB 100 "b.mp3" statePlayingA).ret = false ∧
    (play_song envLoadFailB 100 "b.mp3" statePlayingA).state.volume = statePlayingA.volume ∧
    (play_song envLoadFailB 100 "b.mp3" statePlayingA).state.last_play_time =
      statePlayingA.last_play_time ∧
    ((play_song envLoadFailB 100 "b.mp3" statePlayingA).loadAttempted = true →
      (play_song envLoadFailB 100 "b.mp3" statePlayingA).state = stop_song statePlayingA) :=
  ⟨by decide,
   (play_song_false_frame envLoadFailB 100 "b.mp3" statePlayingA (by decide)).1,
   (play_song_false_frame envLoadFailB 100 "b.mp3" statePlayingA (by decide)).2.1,
   (play_song_false_frame envLoadFailB 100 "b.mp3" statePlayingA (by decide)).2.2.2.2⟩

/-- C4: a `play_song` call made less than `min_play_interval` after the
last play start returns false and leaves the whole state — in particular
`current_song` — unchanged. -/
theorem play_song_within_interval (env : AudioEnv) (now : ℚ) (p : String)
    (st : PlayerState)
    (h : now - st.last_play_time < st.min_play_interval) :
    (play_song env now p st).ret = false ∧
    (play_song env now p st).state = st ∧
    (play_song env now p st).state.current_song = st.current_song := by
  rw [play_song, if_pos h]
  exact ⟨rfl, rfl, rfl⟩

/-- Witness: a second call half a time unit after a fresh state's clock. -/
theorem play_song_within_interval_witness :
    ((1:ℚ)/2 - initState.last_play_time < initState.min_play_interval) ∧
    (play_song envOk (1/2) "a.mp3" initState).ret = false ∧
    (play_song envOk (1/2) "a.mp3" initState).state = initState :=
  ⟨by decide,
   (play_song_within_interval envOk (1/2) "a.mp3" initState (by decide)).1,
   (play_song_within_interval envOk (1/2) "a.mp3" initState (by decide)).2.1⟩

/-- C5: the invariant "`current_song` is non-null iff `is_playing`" holds
in the initial state and is preserved by every branch of `play_song`, by
`stop_song` and by `set_volume`. -/
theorem playback_invariant :
    playbackInv initState ∧
    (∀ (env : AudioEnv) (now : ℚ) (p : String) (st : PlayerState),
      playbackInv st → playbackInv (play_song env now p st).state) ∧
    (∀ st : PlayerState, playbackInv st → playbackInv (stop_song st)) ∧
    (∀ (v : ℚ) (st : PlayerState), playbackInv st → playbackInv (set_volume v st).2) := by
  refine ⟨rfl, ?_, ?_, ?_⟩
  · intro env now p st hinv
    simp only [play_song]
    split_ifs with h1 h2 h3 h4 h5
    · exact hinv
    · exact hinv
    · exact hinv
    · exact hinv
    · rfl
    · simp only [stop_song]
      split_ifs with h6
      · rfl
      · exact hinv
  · intro st hinv
    simp only [stop_song]
    split_ifs with h1
    · rfl
    · exact hinv
  · intro v st hinv
    exact hinv

/-- Witness: the invariant holds initially and is preserved by a concrete
successful `play_song` call. -/
theorem playback_invariant_witness :
    playbackInv initState ∧ playbackInv (play_song envOk 100 "a.mp3" initState).state :=
  ⟨playback_invariant.1,
   playback_invariant.2.1 envOk 100 "a.mp3" initState (by decide)⟩

/-- C6: `set_volume` stores the input clamped to `[0, 1]`, changes nothing
else, and always returns true; in particular `-1` clamps to `0.0` and `2`
clamps to `1.0`. -/
theorem set_volume_clamps (v : ℚ) (st : PlayerState) :
    set_volume v st = (true, { st with volume := max 0 (min 1 v) }) ∧
    (set_volume (-1) st).2.volume = 0 ∧
    (set_volume 2 st).2.volume = 1 := by
  refine ⟨rfl, ?_, ?_⟩ <;> simp [set_volume]

/-- C10: `last_play_time` moves only when a track is actually loaded and
started: every false-returning call keeps it, a true-returning call that
did not reach the load step keeps the whole state (so a redundant request
for the playing song does not reset the minimum-interval clock), and when
it does change, the call returned true through the load step and stamped
the current time. -/
theorem play_song_last_time_frame (env : AudioEnv) (now : ℚ) (p : String)
    (st : PlayerState) :
    ((play_song env now p st).ret = false →
      (play_song env now p st).state.last_play_time = st.last_play_time) ∧
    ((play_song env now p st).ret = true → (play_song env now p st).loadAttempted = false →
      (play_song env now p st).state = st) ∧
    ((play_song env now p st).state.last_play_time ≠ st.last_play_time →
      (play_song env now p st).ret = true ∧
      (play_song env now p st).loadAttempted = true ∧
      (play_song env now p st).state.last_play_time = now) := by
  simp only [play_song]
  split_ifs with h1 h2 h3 h4 h5 <;>
    first
      | exact ⟨fun _ => rfl, fun _ _ => rfl, fun hne => absurd rfl hne⟩
      | exact ⟨fun hc => absurd hc (by simp), fun _ hc => absurd hc (by simp),
          fun _ => ⟨rfl, rfl, rfl⟩⟩
      | (refine ⟨fun _ => ?_, fun hc _ => absurd hc (by simp), fun hne => absurd ?_ hne⟩ <;>
          (simp only [stop_song]; split_ifs <;> rfl))

/-- Witness: the already-playing branch returns true without touching the
state, hence without resetting the clock. -/
theorem play_song_last_time_frame_witness :
    (play_song envOk 100 "a.mp3" statePlayingA).ret = true ∧
    (play_song envOk 100 "a.mp3" statePlayingA).loadAttempted = false ∧
    (play_song envOk 100 "a.mp3" statePlayingA).state = statePlayingA :=
  ⟨by decide, by decide,
   (play_song_last_time_frame envOk 100 "a.mp3" statePlayingA).2.1 (by decide) (by decide)⟩

theorem lookup_eq_none_of_not_mem {β : Type} (e : String) :
    ∀ m : List (String × β), e ∉ m.map Prod.fst → m.lookup e = none := by
  intro m
  induction m with
  | nil => intro _; rfl
  | cons x xs ih =>
    intro h
    simp only [List.map_cons, List.mem_cons] at h
    push_neg at h
    have hbeq : (e == x.1) = false := beq_eq_false_iff_ne.mpr h.1
    obtain ⟨k, v⟩ := x
    simp only [List.lookup, hbeq]
    exact ih h.2

/-- C8: the emotion table has exactly the seven known labels, each mapped
to its fixed (valence, arousal) pair; an unknown label maps to `(0, 0)`;
and a failing or empty detection yields `(none, 0, 0)` instead of an
exception. -/
theorem detect_emotion_spec :
    emotion_map.map Prod.fst =
      ["happy", "sad", "angry", "neutral", "fear", "surprise", "disgust"] ∧
    emotion_to_valence_arousal "happy" = (8/10, 8/10) ∧
    emotion_to_valence_arousal "sad" = (-(8/10), -(4/10)) ∧
    emotion_to_valence_arousal "angry" = (-(7/10), 8/10) ∧
    emotion_to_valence_arousal "neutral" = (0, 0) ∧
    emotion_to_valence_arousal "fear" = (-(8/10), 5/10) ∧
    emotion_to_valence_arousal "surprise" = (4/10, 8/10) ∧
    emotion_to_valence_arousal "disgust" = (-(8/10), 1/10) ∧
    (∀ e, e ∉ emotion_map.map Prod.fst → emotion_to_valence_arousal e = (0, 0)) ∧
    (∀ msg, detect_emotion (Except.error msg) = (none, 0, 0)) ∧
    detect_emotion (Except.ok []) = (none, 0, 0) := by
  refine ⟨by decide, by decide, by decide, by decide, by decide, by decide, by decide,
    by decide, ?_, fun _ => rfl, rfl⟩
  intro e he
  unfold emotion_to_valence_arousal
  rw [lookup_eq_none_of_not_mem e emotion_map he]
  rfl

/-- Witness: the unknown label "bored" is outside the table and maps to
the neutral pair. -/
theorem detect_emotion_spec_witness :
    "bored" ∉ emotion_map.map Prod.fst ∧
    emotion_to_valence_arousal "bored" = (0, 0) :=
  ⟨by decide, detect_emotion_spec.2.2.2.2.2.2.2.2.1 "bored" (by decide)⟩

theorem mem_groupLabels_song_id (ls : List LabelRow) (l : LabelRow)
    (h : l ∈ groupLabels ls) : l.song_id ∈ ls.map (·.song_id) := by
  simp only [groupLabels, List.mem_map] at h
  obtain ⟨sid, hsid, rfl⟩ := h
  exact List.mem_dedup.mp ((List.mergeSort_perm _ _).mem_iff.mp hsid)

/-- C9: a song id present among the feature rows but absent from both
annotation tables yields no row of the final merged table (inner-join
semantics). -/
theorem load_dataset_inner_join (features : List FeatRow) (l1 l2 : List LabelRow)
    (sid : Nat) (hf : sid ∈ features.map (·.song_id))
    (hl : sid ∉ (l1 ++ l2).map (·.song_id)) :
    ∀ row ∈ load_dataset_table features l1 l2, row.song_id ≠ sid := by
  intro row hrow
  simp only [load_dataset_table, mergeOnSongId, List.mem_flatMap, List.mem_map] at hrow
  obtain ⟨f, hfmem, l, hlmem, rfl⟩ := hrow
  have hfil := List.mem_filter.mp hlmem
  have hgrp : l.song_id ∈ (l1 ++ l2).map (·.song_id) :=
    mem_groupLabels_song_id (l1 ++ l2) l hfil.1
  have heq : l.song_id = f.song_id := by simpa using hfil.2
  intro hc
  have hc2 : f.song_id = sid := hc
  exact hl (by rw [← hc2, ← heq]; exact hgrp)

/-- Witness: song 5 has features but no annotation in either table, so no
merged row carries id 5. -/
theorem load_dataset_inner_join_witness :
    5 ∈ [featExample].map (·.song_id) ∧
    5 ∉ ([labelExample] ++ ([] : List LabelRow)).map (·.song_id) ∧
    ∀ row ∈ load_dataset_table [featExample] [labelExample] [], row.song_id ≠ 5 :=
  ⟨by decide, by decide,
   load_dataset_inner_join [featExample] [labelExample] [] 5 (by decide) (by decide)⟩

end EmotionMusic
